import Mathlib

/-!
Verification of the core variable, environment, and numeric claims of the
`iv` APL interpreter, as a shallow embedding of the Go sources.

The embedding follows `src/apl/var.go` (identifiers, `Assign`, `AssignEnv`,
`Lookup`, `LookupEnv`, `packageVar`, `numVar.Eval`, `isVarname`),
`src/unnamed/part_003` (the `big` package's `Float.Div2`), the reduction
identities recorded by the repository's own test table
(`src/apl/primitives/apl_test.go`), and — where a component's source is not
part of the repository snapshot — definitions modelled from the spec, each
marked as such in its doc comment.
-/

set_option autoImplicit false

namespace IvApl

/-- The interpreter's tagged value union, restricted to the variants the
claims exercise.  `int` is `apl.Int`; `num` is any other `apl.Number`,
carrying the answer the numeric tower's `ToBool` gives for it (the tower
implementation is outside `var.go`, which only consumes that answer);
`str` is `apl.String`; `ident` is `apl.Identifier` (var.go:14); `fn` is a
`Function` value with an opaque payload. -/
inductive Value where
  | int : Int → Value
  | num : Option Bool → Value
  | str : String → Value
  | ident : String → Value
  | fn : Nat → Value
  deriving DecidableEq

/-- The Go type assertion `v.(Function)`: only `fn` values implement the
`Function` interface (an `Identifier` does not). -/
def isFunction : Value → Bool
  | .fn _ => true
  | _ => false

/-- The Go type assertion `v.(Number)`: `apl.Int` and the other tower
numbers are `Number`s; strings, identifiers and functions are not. -/
def isNumber : Value → Bool
  | .int _ => true
  | .num _ => true
  | _ => false

/-- `a.Tower.ToBool` on a value already known to be a `Number`.  For a
`num` the stored answer is returned.  The tower's conversion for `apl.Int`
is not part of the sources; it is modelled from the spec (the index origin
is 0 or 1), and no theorem below depends on its exact values. -/
def towerToBool : Value → Option Bool
  | .int n => if n = 0 then some false else if n = 1 then some true else none
  | .num tb => tb
  | _ => none

/-- One environment's `vars` map (`env.vars` in Go), as an association
list; `fget` and `fset` give the map's read and write. -/
def Frame := List (String × Value)

instance : DecidableEq Frame := by
  unfold Frame; infer_instance

/-- Go map read `e.vars[name]`: the value stored under `name`, if any. -/
def fget : Frame → String → Option Value
  | [], _ => none
  | (k, v) :: rest, name => if k = name then some v else fget rest name

/-- Go map write `e.vars[name] = v`: replace the binding of `name` or add
one. -/
def fset : Frame → String → Value → Frame
  | [], name, v => [(name, v)]
  | (k, w) :: rest, name, v =>
    if k = name then (k, v) :: rest else (k, w) :: fset rest name v

/-- The two scanner callbacks `var.go` depends on: `scan.AllowedInVarname`
(whether a rune may occur in a variable name, with a flag for the first
rune) and `unicode.IsUpper`.  Both live outside the repository snapshot,
so the embedding is parametric in them; witnesses instantiate them with
`asciiScan` below. -/
structure Scan where
  allowed : Char → Bool → Bool
  isUpper : Char → Bool

/-- A concrete instantiation of the scanner callbacks for the ASCII
letters, digits and the three APL name glyphs; used by the concrete
witnesses only. -/
def asciiScan : Scan where
  allowed := fun c first =>
    c.isAlpha || c = '⎕' || c = '⍺' || c = '⍵' || (!first && c.isDigit)
  isUpper := Char.isUpper

/-- The rune loop of `isVarname` (var.go:220-227): every rune must be
allowed, and `upper` becomes true when the first rune is upper case or any
rune is one of the glyphs `⎕ ⍺ ⍵`.  Returns `none` when a rune is not
allowed, otherwise the final `upper` flag. -/
def varnameLoop (sc : Scan) : List Char → Bool → Bool → Option Bool
  | [], _, upper => some upper
  | c :: cs, first, upper =>
    if sc.allowed c first = false then none
    else varnameLoop sc cs false
      (upper || (first && sc.isUpper c) || c = '⎕' || c = '⍺' || c = '⍵')

/-- `strings.Index(s, "→")` followed by the two slices: the part before the
first `→` and the part after it, or `none` when there is no `→`. -/
def splitAtArrow : List Char → Option (List Char × List Char)
  | [] => none
  | c :: cs =>
    if c = '→' then some ([], cs)
    else
      match splitAtArrow cs with
      | none => none
      | some (p, r) => some (c :: p, r)

/-- `strings.ContainsRune(name, '→')`. -/
def arrowIn (s : String) : Bool :=
  s.toList.contains '→'

/-- `isVarname` (var.go:212-229): empty names are not allowed; a package
qualifier up to the first `→` is stripped; then the rune loop runs.  The
second component is `isfunc`: true exactly when the name is not "upper"
(var.go:228). -/
def isVarname (sc : Scan) (s : String) : Bool × Bool :=
  if s = "" then (false, false)
  else
    let t := match splitAtArrow s.toList with
      | some (_, rest) => rest
      | none => s.toList
    match varnameLoop sc t true false with
    | none => (false, false)
    | some upper => (true, !upper)

/-- The runtime state `apl.Apl`, restricted to the fields `var.go` touches:
the index origin, the print precision, the output sink (a list of the
strings written to `a.stdout`), the environment chain (`a.env` and its
parents; the head is the current environment, the last element the root),
and the package map `a.pkg`. -/
structure Apl where
  origin : Int
  pp : Int
  stdout : List String
  envs : List Frame
  pkgs : List (String × Frame)
  deriving DecidableEq

/-- Modelled from the spec: the value formatter `v.String(a.Format)`.  The
format machinery is outside the snapshot; the claims below depend only on
the formatted text being a function of the value. -/
def formatValue : Value → String
  | .int n => toString n
  | .num _ => "(number)"
  | .str s => s
  | .ident s => s
  | .fn n => "(function " ++ toString n ++ ")"

/-- Modelled from the spec: `a.SetPP` stores the print precision when the
value is a suitable number (⎕PP read/writes print precision).  No claim
below depends on its details. -/
def setPP (v : Value) (a : Apl) : Option String × Apl :=
  match v with
  | .int n => (none, { a with pp := n })
  | _ => (some "cannot set print precision", a)

/-- Go map read on the package map `a.pkg[name]`. -/
def pget : List (String × Frame) → String → Option Frame
  | [], _ => none
  | (k, fr) :: rest, name => if k = name then some fr else pget rest name

/-- `AssignEnv` (var.go:34-81).  The `envIdx` argument plays the role of
the `env *env` pointer: `none` is Go's `nil` (assign in the current
environment, the head of the chain), `some i` is the chain's `i`-th
environment.  The result pairs the returned `error` with the state; every
error return in the Go code happens before any mutation, so the state is
returned unchanged alongside an error. -/
def AssignEnv (sc : Scan) (name : String) (v : Value) (envIdx : Option Nat)
    (a : Apl) : Option String × Apl :=
  let ok := (isVarname sc name).1
  let isfunc := (isVarname sc name).2
  if ok = false then (some "variable name is not allowed", a)
  else if arrowIn name then (some "cannot assign to a package variable", a)
  else if name = "⎕" then
    (none, { a with stdout := a.stdout ++ [formatValue v ++ "\n"] })
  else if name = "⎕IO" then
    if isNumber v then
      match towerToBool v with
      | some b => (none, { a with origin := if b then 1 else 0 })
      | none => (some "cannot set index origin", a)
    else (some "cannot set index origin", a)
  else if name = "⎕PP" then setPP v a
  else if isFunction v && !isfunc then
    (some "cannot assign a function to an uppercase variable", a)
  else if !(isFunction v) && isfunc then
    (some "only functions can be assigned to lowercase variables", a)
  else
    let i := envIdx.getD 0
    let fr := (a.envs.get? i).getD []
    if name = "⍺" && (fget fr "⍺").isSome then (none, a)
    else (none, { a with envs := a.envs.set i (fset fr name v) })

/-- `Assign` (var.go:29-31): assign with a nil environment pointer. -/
def Assign (sc : Scan) (name : String) (v : Value) (a : Apl) :
    Option String × Apl :=
  AssignEnv sc name v none a

/-- `packageVar` (var.go:148-160): split at the first `→`, look the package
up in `a.pkg`, and read the variable from the package's environment. -/
def packageVar (name : String) (a : Apl) : Option Value :=
  match splitAtArrow name.toList with
  | none => none
  | some (pre, rest) =>
    match pget a.pkgs (String.mk pre) with
    | none => none
    | some fr => fget fr (String.mk rest)

/-- The environment walk of `LookupEnv` (var.go:109-119): try the current
environment, then the parents; the returned index counts from the current
environment. -/
def lookupChain : List Frame → String → Option (Value × Nat)
  | [], _ => none
  | fr :: rest, name =>
    match fget fr name with
    | some v => some (v, 0)
    | none =>
      match lookupChain rest name with
      | none => none
      | some (v, i) => some (v, i + 1)

/-- `LookupEnv` (var.go:93-121): `⎕IO` and `⎕PP` answer from the runtime
settings; a name with `→` answers from the package map when the prefix is
lower case (and finds nothing otherwise); every other name walks the
environment chain.  The second component is the environment in which the
name was found (`nil` for the special and package cases). -/
def LookupEnv (name : String) (a : Apl) : Option Value × Option Nat :=
  if name = "⎕IO" then (some (.int a.origin), none)
  else if name = "⎕PP" then (some (.int a.pp), none)
  else
    match splitAtArrow name.toList with
    | some (pre, _) =>
      if pre.map Char.toLower = pre then (packageVar name a, none)
      else (none, none)
    | none =>
      match lookupChain a.envs name with
      | some (v, i) => (some v, some i)
      | none => (none, none)

/-- `Lookup` (var.go:86-89). -/
def Lookup (name : String) (a : Apl) : Option Value :=
  (LookupEnv name a).1

/-- `numVar.Eval` (var.go:173-179): an undeclared name evaluates to its
own `Identifier`; the returned error is always `nil`. -/
def numVarEval (name : String) (a : Apl) : Value × Option String :=
  match Lookup name a with
  | none => (.ident name, none)
  | some x => (x, none)

/-! ## The big tower's division (src/unnamed/part_003, `Float.Div2`) -/

/-- A `big.Float` value: either a finite number (carried exactly as a
rational; the precision-bounded mantissa and `Quo`'s rounding are
abstracted, which no zero/infinity claim depends on) or a signed
infinity.  `big.Float` has no NaN. -/
inductive BigF where
  | fin : ℚ → BigF
  | inf : Bool → BigF
  deriving DecidableEq

/-- `f.Float.IsInf()`. -/
def BigF.isInf : BigF → Bool
  | .fin _ => false
  | .inf _ => true

/-- `f.Float.Sign() == 0`: a `big.Float` is zero only when finite zero
(infinities have sign ±1). -/
def BigF.isZero : BigF → Bool
  | .fin q => q = 0
  | .inf _ => false

/-- The rational carried by a finite `big.Float` (0 for an infinity, which
is never consulted). -/
def BigF.rat : BigF → ℚ
  | .fin q => q
  | .inf _ => 0

/-- The `apl.Value` results `Div2` can produce: the package-level
sentinels `numbers.NaN` and `numbers.Inf`, or a `big.Float`. -/
inductive NumV where
  | nan : NumV
  | posInf : NumV
  | big : BigF → NumV
  deriving DecidableEq

/-- `Float.Div2` (part_003:82-100).  The Go method returns `(apl.Value,
bool)`; `none` stands for a `false` second component (which no branch
produces).  An infinite receiver yields `numbers.Inf`; an infinite
argument yields `numbers.NaN`; then the four sign cases; the general case
is the rounded quotient `Quo`, modelled as the exact rational quotient. -/
def Div2 (f R : BigF) : Option NumV :=
  if f.isInf then some .posInf
  else if R.isInf then some .nan
  else
    let lz := f.isZero
    let rz := R.isZero
    if lz && rz then some .nan
    else if lz then some (.big (.fin 0))
    else if rz then some .posInf
    else some (.big (.fin (f.rat / R.rat)))

/-! ## Reduction identities over the empty vector

The reduce operator's identity table is not part of the repository
snapshot; the repository's own test table
(src/apl/primitives/apl_test.go:650-674) records the value `f/⍳0` prints
for each primitive under the default tower, and is embedded here.  The
printed texts are decimal renderings of exact numbers; `¯` is the high
minus. -/

/-- `math.MaxFloat64`, the value whose shortest decimal rendering is
1.7976931348623157e+308, exactly. -/
def maxFloat64 : ℚ := (2 ^ 53 - 1) * 2 ^ 971

/-- The value of `f/⍳0` for the scalar primitives, as fixed by the test
expectations: `+/⍳0` prints 0, `×/⍳0` prints 1, `⌊/⍳0` prints
`¯1.7976931348623157e+308` (the negated `math.MaxFloat64`), `⌈/⍳0` prints
`1.7976931348623157e+308`, and so on (apl_test.go:651-668). -/
def reduceEmpty : String → Option ℚ
  | "+" => some 0
  | "-" => some 0
  | "×" => some 1
  | "÷" => some 1
  | "|" => some 0
  | "⌊" => some (-maxFloat64)
  | "⌈" => some maxFloat64
  | "*" => some 1
  | "!" => some 1
  | "∧" => some 1
  | "∨" => some 0
  | "<" => some 0
  | "≤" => some 1
  | "=" => some 1
  | "≥" => some 1
  | ">" => some 0
  | "≠" => some 0
  | _ => none

/-! ## Selective specification through take

The selective-assignment evaluator and the take primitive's inverse index
map live outside the repository snapshot; the next two definitions are
modelled from the spec, and the expected result is also recorded by the
test `A←10 20 30 40 ⋄ (2↑A)←100 200 ⋄ A` → `100 200 30 40`
(apl_test.go:773). -/

/-- Modelled from the spec: the inverse index map of the take expression
`n↑X` for `0 ≤ n ≤ ≢X` — LHS cell `i` targets cell `i` of the underlying
variable (take selects the first `n` cells; positions are origin-0 ravel
offsets). -/
def takeInvMap (n : Nat) : List Nat :=
  List.range n

/-- Overwrite ravel position `i` of a vector, leaving other cells as they
are. -/
def cellSet : List Value → Nat → Value → List Value
  | [], _, _ => []
  | _ :: xs, 0, v => v :: xs
  | x :: xs, i + 1, v => x :: cellSet xs i v

/-- Modelled from the spec: selective specification writes the RHS cells
through the inverse index map into a clone of the bound array (cell `j` of
the RHS goes to underlying position `m j`) and the variable is reassigned
to the clone. -/
def selectiveAssign (xs : List Value) (m : List Nat) (rhs : List Value) :
    List Value :=
  match m, rhs with
  | [], _ => xs
  | _, [] => xs
  | i :: ms, v :: vs => selectiveAssign (cellSet xs i v) ms vs

/-! ## Lambda default left argument

The lambda evaluator is outside the repository snapshot; entering a call
is modelled from the spec ("create a fresh environment whose parent is the
lambda's captured environment; bind ⍵ to the right operand, ⍺ to the
left"), while the default-argument statement `⍺←d` runs through the real
`AssignEnv`, whose ⍺ guard (var.go:73-77) is what decides the claim. -/

/-- Modelled from the spec: push the fresh call environment, binding `⍵`
to the right operand and — when the call is dyadic — `⍺` to the left
operand. -/
def lambdaEnter (left : Option Value) (right : Value) (a : Apl) : Apl :=
  let fr : Frame :=
    match left with
    | some l => [("⍺", l), ("⍵", right)]
    | none => [("⍵", right)]
  { a with envs := fr :: a.envs }

/-- The scalar `+` on the values the example uses. -/
def addValues : Value → Value → Option Value
  | .int m, .int n => some (.int (m + n))
  | _, _ => none

/-- Evaluate the lambda body `⍺←d ⋄ ⍺+⍵` in a fresh call environment: the
first statement assigns the default left argument through `AssignEnv`
(var.go), the second adds the values `⍺` and `⍵` evaluate to. -/
def callDefaultLambda (sc : Scan) (d : Value) (left : Option Value)
    (right : Value) (a : Apl) : Option Value :=
  let a1 := lambdaEnter left right a
  match AssignEnv sc "⍺" d none a1 with
  | (some _, _) => none
  | (none, a2) =>
    match Lookup "⍺" a2, Lookup "⍵" a2 with
    | some x, some y => addValues x y
    | _, _ => none

/-! ## C1: selective specification through take -/

/-- C1: after `X ← 10 20 30 40` and the selective specification
`(2↑X) ← 100 200`, writing the RHS cells through take's inverse index map
into a clone of the bound vector yields `100 200 30 40`: the assigned
cells are the first two positions and every other cell is unchanged (the
suffix from position 2 on is the original suffix). -/
theorem C1_take_selective_specification :
    selectiveAssign [Value.int 10, Value.int 20, Value.int 30, Value.int 40]
        (takeInvMap 2) [Value.int 100, Value.int 200]
      = [Value.int 100, Value.int 200, Value.int 30, Value.int 40] ∧
    List.drop 2
        (selectiveAssign [Value.int 10, Value.int 20, Value.int 30, Value.int 40]
          (takeInvMap 2) [Value.int 100, Value.int 200])
      = List.drop 2 [Value.int 10, Value.int 20, Value.int 30, Value.int 40] := by
  exact ⟨rfl, rfl⟩

/-! ## C3: reduction of the empty vector -/

/-- C3 counterexample: the claim says `⌊/⍳0` is +∞ of the current float
kind, but the code's value (recorded by the repository's test,
apl_test.go:656) is the negated largest finite float64 — a negative,
finite number, not +∞. -/
theorem C3_counterexample :
    reduceEmpty "⌊" = some (-maxFloat64) ∧ -maxFloat64 < 0 := by
  refine ⟨rfl, ?_⟩
  have h : (0 : ℚ) < maxFloat64 := by
    unfold maxFloat64; positivity
  linarith

/-- C3 amended: `+/⍳0` is 0 and `×/⍳0` is 1 as claimed, but `⌊/⍳0` is the
negated `math.MaxFloat64` (printed `¯1.7976931348623157e+308`), not +∞. -/
theorem C3_reduce_empty_identities :
    reduceEmpty "+" = some 0 ∧ reduceEmpty "×" = some 1 ∧
    reduceEmpty "⌊" = some (-maxFloat64) := by
  exact ⟨rfl, rfl, rfl⟩

/-! ## C4: big Float division never fails -/

/-- C4 counterexample: with `L = 0` and `R = +Inf`, only L is zero, yet
`Div2` returns the NaN sentinel (the `R.IsInf()` branch fires first), not
zero as the claim requires. -/
theorem C4_counterexample :
    Div2 (.fin 0) (.inf false) = some .nan ∧
    some NumV.nan ≠ some (NumV.big (.fin 0)) := by
  exact ⟨rfl, by decide⟩

/-- C4 amended: `Div2` always returns a value and true; both operands zero
gives the NaN sentinel; only R zero gives the infinity sentinel; only L
zero gives zero provided R is not an infinity — an infinite R (with a
finite L, zero or not) gives the NaN sentinel instead. -/
theorem C4_div2_total_and_sentinels (L R : BigF) :
    (Div2 L R).isSome = true ∧
    (L.isZero = true → R.isZero = true → Div2 L R = some .nan) ∧
    (R.isZero = true → L.isZero = false → Div2 L R = some .posInf) ∧
    (L.isZero = true → R.isZero = false → R.isInf = false →
      Div2 L R = some (.big (.fin 0))) ∧
    (R.isInf = true → L.isInf = false → Div2 L R = some .nan) := by
  cases L with
  | fin p =>
    cases R with
    | fin q =>
      simp only [Div2, BigF.isInf, BigF.isZero, BigF.rat]
      split_ifs <;> simp_all
    | inf s => simp [Div2, BigF.isInf, BigF.isZero]
  | inf s =>
    cases R <;> simp [Div2, BigF.isInf, BigF.isZero]

/-- C4 witness: the amended theorem at the concrete pair (0, 0): both
operands zero yields the NaN sentinel. -/
theorem C4_witness : Div2 (.fin 0) (.fin 0) = some .nan :=
  (C4_div2_total_and_sentinels (.fin 0) (.fin 0)).2.1 rfl rfl

/-! ## C2: where assignment writes -/

/-- A state whose current environment is empty while its parent (here the
root) binds `A`; this is the situation inside the lambda of the test
`A←1⋄A←2⋄A2⋄A` family (apl_test.go:824-832). -/
def stateC2 : Apl :=
  { origin := 1, pp := 10, stdout := [], envs := [[], [("A", Value.int 1)]],
    pkgs := [] }

/-- C2 counterexample: `A` is bound only in the outer environment, yet
`Assign` (a nil environment pointer, var.go:29-31) writes a fresh binding
into the current environment and leaves the outer binding at its old
value — it does not write into the innermost environment that already
contains the name, as the claim requires. -/
theorem C2_counterexample :
    (Assign asciiScan "A" (Value.int 2) stateC2).1 = none ∧
    (Assign asciiScan "A" (Value.int 2) stateC2).2.envs
      = [[("A", Value.int 2)], [("A", Value.int 1)]] := by
  exact ⟨rfl, rfl⟩

/-- C2 amended: `AssignEnv` never searches the chain for an existing
binding: with a nil environment pointer it writes into the current
(innermost) environment unconditionally, and with an explicit environment
it writes there; outer bindings change only when the caller passes the
environment in which lookup found the name (as the evaluator does for
modified, indexed, selective and `⊢←` assignment). -/
theorem C2_assign_writes_given_env (sc : Scan) (name : String) (v : Value)
    (isfunc : Bool) (fr : Frame) (rest : List Frame) (a : Apl)
    (hname : isVarname sc name = (true, isfunc))
    (harrow : arrowIn name = false)
    (hq : name ≠ "⎕") (hio : name ≠ "⎕IO") (hpp : name ≠ "⎕PP")
    (halpha : name ≠ "⍺")
    (hkind : isFunction v = isfunc)
    (henv : a.envs = fr :: rest) :
    AssignEnv sc name v none a
      = (none, { a with envs := fset fr name v :: rest }) ∧
    ∀ k fr2, a.envs.get? k = some fr2 →
      AssignEnv sc name v (some k) a
        = (none, { a with envs := a.envs.set k (fset fr2 name v) }) := by
  have hff : (isFunction v && !isfunc) = false := by
    rw [hkind]; cases isfunc <;> rfl
  have hnf : (!(isFunction v) && isfunc) = false := by
    rw [hkind]; cases isfunc <;> rfl
  constructor
  · simp only [AssignEnv, hname, harrow, hff, hnf, henv]
    simp [hq, hio, hpp, halpha]
  · intro k fr2 hk
    simp only [AssignEnv, hname, harrow, hff, hnf, hk]
    rw [List.get?_eq_getElem?] at hk
    simp [hq, hio, hpp, halpha, hk]

/-- C2 witness: the amended theorem at a concrete state: a nil pointer
writes the current (empty) environment, and passing the parent
environment writes the parent. -/
theorem C2_witness :
    AssignEnv asciiScan "A" (Value.int 2) none stateC2
      = (none, { stateC2 with
          envs := [[("A", Value.int 2)], [("A", Value.int 1)]] }) ∧
    AssignEnv asciiScan "A" (Value.int 2) (some 1) stateC2
      = (none, { stateC2 with
          envs := [[], [("A", Value.int 2)]] }) := by
  have h := C2_assign_writes_given_env asciiScan "A" (Value.int 2) false
    [] [[("A", Value.int 1)]] stateC2 (by decide) (by decide)
    (by decide) (by decide) (by decide) (by decide) rfl rfl
  exact ⟨h.1, h.2 1 [("A", Value.int 1)] rfl⟩

/-! ## C5: the naming law enforced by assignment -/

/-- A name none of whose runes is one of the reserved glyphs `⎕ ⍺ ⍵`; the
reserved system and lambda names (⎕, ⎕IO, ⎕PP, ⎕NL, ⍺, ⍵, ⍺⍺, ⍵⍵) all
contain one of them, so this captures "non-reserved" ordinary names. -/
def glyphFree (s : String) : Bool :=
  s.toList.all (fun c => !(c = '⎕' || c = '⍺' || c = '⍵'))

/-- Whether the name's first rune is upper case — the claim's
"uppercase-first" (a value variable). -/
def firstUpper (sc : Scan) (s : String) : Bool :=
  match s.toList with
  | [] => false
  | c :: _ => sc.isUpper c

theorem splitAtArrow_eq_none (cs : List Char)
    (h : cs.contains '→' = false) : splitAtArrow cs = none := by
  induction cs with
  | nil => rfl
  | cons c cs ih =>
    rw [List.contains_cons, Bool.or_eq_false_iff] at h
    rw [splitAtArrow]
    have hc : ¬ c = '→' := by
      intro hh
      subst hh
      simp at h
    rw [if_neg hc, ih h.2]

theorem string_toList_nil (s : String) (h : s.toList = []) : s = "" := by
  cases s with
  | mk data =>
    simp only [String.toList] at h
    subst h
    rfl

theorem varnameLoop_no_glyph (sc : Scan) (cs : List Char) :
    ∀ upper u : Bool,
      cs.all (fun c => !(c = '⎕' || c = '⍺' || c = '⍵')) = true →
      varnameLoop sc cs false upper = some u → u = upper := by
  induction cs with
  | nil =>
    intro upper u _ h
    exact (Option.some.inj h).symm
  | cons c cs ih =>
    intro upper u hg h
    rw [List.all_cons, Bool.and_eq_true] at hg
    rw [varnameLoop] at h
    cases hA : sc.allowed c false with
    | false => rw [hA] at h; simp at h
    | true =>
      rw [hA] at h
      simp only [Bool.true_eq_false, if_false] at h
      have hacc :
          (upper || (false && sc.isUpper c) || c = '⎕' || c = '⍺' || c = '⍵')
            = upper := by
        have h1 := hg.1
        rw [Bool.not_eq_true', Bool.or_eq_false_iff, Bool.or_eq_false_iff] at h1
        simp [h1.1.1, h1.1.2, h1.2]
      rw [hacc] at h
      exact ih upper u hg.2 h

theorem isVarname_firstUpper (sc : Scan) (s : String) (isfunc : Bool)
    (hg : glyphFree s = true) (harrow : arrowIn s = false)
    (hv : isVarname sc s = (true, isfunc)) :
    isfunc = !(firstUpper sc s) := by
  by_cases hs : s = ""
  · subst hs; simp [isVarname] at hv
  rw [isVarname, if_neg hs, splitAtArrow_eq_none s.toList harrow] at hv
  cases hl : s.toList with
  | nil => exact absurd (string_toList_nil s hl) hs
  | cons c cs =>
    rw [hl] at hv
    rw [glyphFree, hl, List.all_cons, Bool.and_eq_true] at hg
    simp only [varnameLoop] at hv
    cases hA : sc.allowed c true with
    | false => rw [hA] at hv; simp at hv
    | true =>
      rw [hA] at hv
      simp only [Bool.true_eq_false, if_false] at hv
      have hacc :
          (false || (true && sc.isUpper c) || c = '⎕' || c = '⍺' || c = '⍵')
            = sc.isUpper c := by
        have h1 := hg.1
        rw [Bool.not_eq_true', Bool.or_eq_false_iff, Bool.or_eq_false_iff] at h1
        simp [h1.1.1, h1.1.2, h1.2]
      rw [hacc] at hv
      cases hLoop : varnameLoop sc cs false (sc.isUpper c) with
      | none => rw [hLoop] at hv; simp at hv
      | some upper =>
        rw [hLoop] at hv
        have hu := varnameLoop_no_glyph sc cs (sc.isUpper c) upper hg.2 hLoop
        have : isfunc = !upper := (Prod.mk.inj hv).2.symm
        rw [this, hu, firstUpper, hl]

/-- C5: for a valid, non-reserved (no `⎕ ⍺ ⍵` rune), non-package-qualified
name, `AssignEnv` returns an error exactly when the value's kind disagrees
with the name's case — a `Function` under an uppercase-first name, or a
non-`Function` under a lowercase-first name — and in the error cases the
state (hence every binding) is unchanged. -/
theorem C5_assign_kind_check (sc : Scan) (name : String) (v : Value)
    (isfunc : Bool) (a : Apl)
    (hname : isVarname sc name = (true, isfunc))
    (hg : glyphFree name = true)
    (harrow : arrowIn name = false) :
    ((AssignEnv sc name v none a).1.isSome
        = (isFunction v == firstUpper sc name)) ∧
    ((AssignEnv sc name v none a).1.isSome = true →
      (AssignEnv sc name v none a).2 = a) := by
  have hq : name ≠ "⎕" := by rintro rfl; revert hg; decide
  have hio : name ≠ "⎕IO" := by rintro rfl; revert hg; decide
  have hpp : name ≠ "⎕PP" := by rintro rfl; revert hg; decide
  have halpha : name ≠ "⍺" := by rintro rfl; revert hg; decide
  have hfu := isVarname_firstUpper sc name isfunc hg harrow hname
  cases hu : firstUpper sc name <;> rw [hu] at hfu <;> subst hfu <;>
    cases hv2 : isFunction v <;>
    simp [AssignEnv, hname, hv2, hq, hio, hpp, halpha, harrow]

/-- A state for the C5 witness. -/
def stateC5 : Apl :=
  { origin := 1, pp := 10, stdout := [], envs := [[]], pkgs := [] }

/-- C5 witness: assigning a function to the uppercase-first name `X`
errors and changes nothing. -/
theorem C5_witness :
    (AssignEnv asciiScan "X" (Value.fn 0) none stateC5).1.isSome = true ∧
    (AssignEnv asciiScan "X" (Value.fn 0) none stateC5).2 = stateC5 := by
  have h := C5_assign_kind_check asciiScan "X" (Value.fn 0) false stateC5
    (by decide) (by decide) (by decide)
  exact ⟨h.1.trans (by decide), h.2 (h.1.trans (by decide))⟩

/-! ## C6: default left argument ⍺←d -/

/-- C6: in a lambda body starting with `⍺←d`, the name `⍺` evaluates to
the caller's left operand when the call is dyadic — the default
assignment runs through `AssignEnv`, whose guard (var.go:73-77) refuses to
overwrite a bound `⍺` — and to the default `d` when the call is monadic,
so the body `⍺+⍵` adds the left operand (or the default) to the right
operand. -/
theorem C6_default_left_argument (sc : Scan) (d l r : Value) (a : Apl)
    (hvalid : isVarname sc "⍺" = (true, false))
    (hd : isFunction d = false) :
    callDefaultLambda sc d (some l) r a = addValues l r ∧
    callDefaultLambda sc d none r a = addValues d r := by
  have ha : arrowIn "⍺" = false := by decide
  have hq : ("⍺" : String) ≠ "⎕" := by decide
  have hio : ("⍺" : String) ≠ "⎕IO" := by decide
  have hpp : ("⍺" : String) ≠ "⎕PP" := by decide
  have hsa : splitAtArrow ['⍺'] = none := by decide
  have hsw : splitAtArrow ['⍵'] = none := by decide
  constructor
  · simp [callDefaultLambda, lambdaEnter, AssignEnv, hvalid, hd, ha, hq,
      hio, hpp, hsa, hsw, Lookup, LookupEnv, lookupChain, fget]
  · simp [callDefaultLambda, lambdaEnter, AssignEnv, hvalid, hd, ha, hq,
      hio, hpp, hsa, hsw, Lookup, LookupEnv, lookupChain, fget, fset]

/-- A state for the C6 witness. -/
def stateC6 : Apl :=
  { origin := 1, pp := 10, stdout := [], envs := [[]], pkgs := [] }

/-- C6 witness: the spec's example `f←(lambda with default 3 adding ⍺ and ⍵)`:
`1 f 4` gives 5 and `f 4` gives 7. -/
theorem C6_witness :
    callDefaultLambda asciiScan (Value.int 3) (some (Value.int 1))
        (Value.int 4) stateC6 = some (Value.int 5) ∧
    callDefaultLambda asciiScan (Value.int 3) none (Value.int 4) stateC6
      = some (Value.int 7) := by
  have h := C6_default_left_argument asciiScan (Value.int 3) (Value.int 1)
    (Value.int 4) stateC6 (by decide) rfl
  exact ⟨h.1, h.2⟩

/-! ## C7: lookup walks the chain; unbound names are identifiers -/

theorem lookupChain_first (name : String) :
    ∀ (frames : List Frame) (i : Nat) (fr : Frame) (v : Value),
      (∀ j fr2, j < i → frames.get? j = some fr2 → fget fr2 name = none) →
      frames.get? i = some fr → fget fr name = some v →
      lookupChain frames name = some (v, i) := by
  intro frames
  induction frames with
  | nil => intro i fr v _ hi _; simp at hi
  | cons f rest ih =>
    intro i fr v hbefore hi hv
    cases i with
    | zero =>
      have hf : f = fr := by simpa using hi
      subst hf
      rw [lookupChain, hv]
    | succ i =>
      have h0 : fget f name = none := hbefore 0 f (Nat.succ_pos i) rfl
      rw [lookupChain, h0]
      have hrec := ih i fr v
        (fun j fr2 hj hg => hbefore (j + 1) fr2 (Nat.succ_lt_succ hj) hg)
        hi hv
      rw [hrec]

theorem lookupChain_unbound (name : String) :
    ∀ frames : List Frame,
      (∀ j fr2, frames.get? j = some fr2 → fget fr2 name = none) →
      lookupChain frames name = none := by
  intro frames
  induction frames with
  | nil => intro _; rfl
  | cons f rest ih =>
    intro h
    have h0 : fget f name = none := h 0 f rfl
    rw [lookupChain, h0, ih (fun j fr2 hg => h (j + 1) fr2 hg)]

/-- C7: for an ordinary name, `LookupEnv` walks the chain from the current
environment towards the root and returns the first binding together with
the environment where it was found; when no environment binds the name,
`numVar.Eval` returns the name itself as an `Identifier` and a nil
error. -/
theorem C7_lookup_first_binding (name : String) (a : Apl) (i : Nat)
    (fr : Frame) (v : Value)
    (hio : name ≠ "⎕IO") (hpp : name ≠ "⎕PP")
    (harrow : arrowIn name = false) :
    ((∀ j fr2, j < i → a.envs.get? j = some fr2 → fget fr2 name = none) →
      a.envs.get? i = some fr → fget fr name = some v →
      LookupEnv name a = (some v, some i)) ∧
    ((∀ j fr2, a.envs.get? j = some fr2 → fget fr2 name = none) →
      numVarEval name a = (Value.ident name, none)) := by
  constructor
  · intro hbefore hi hv
    rw [LookupEnv, if_neg hio, if_neg hpp,
      splitAtArrow_eq_none name.toList harrow,
      lookupChain_first name a.envs i fr v hbefore hi hv]
  · intro hunbound
    rw [numVarEval, Lookup, LookupEnv, if_neg hio, if_neg hpp,
      splitAtArrow_eq_none name.toList harrow,
      lookupChain_unbound name a.envs hunbound]

/-- A state for the C7 witness. -/
def stateC7 : Apl :=
  { origin := 1, pp := 10, stdout := [], envs := [[("X", Value.int 5)]],
    pkgs := [] }

/-- C7 witness: `X` bound in the current environment is found there (index
0 of the chain). -/
theorem C7_witness :
    LookupEnv "X" stateC7 = (some (Value.int 5), some 0) :=
  (C7_lookup_first_binding "X" stateC7 0 [("X", Value.int 5)] (Value.int 5)
    (by decide) (by decide) (by decide)).1
    (fun j _ hj _ => absurd hj (Nat.not_lt_zero j)) rfl rfl

/-! ## C8: the ⎕IO round trip -/

/-- C8: assigning a `Number` that the tower coerces to boolean `b` to
`⎕IO` succeeds and sets the origin to 1 when `b` is true and 0 when `b` is
false; a subsequent lookup of `⎕IO` returns that origin as an integer; and
assigning a non-`Number` errors and leaves the whole state (in particular
the origin) unchanged. -/
theorem C8_io_roundtrip (sc : Scan) (v : Value) (b : Bool) (env : Option Nat)
    (a : Apl)
    (hvalid : (isVarname sc "⎕IO").1 = true)
    (hnum : isNumber v = true)
    (htb : towerToBool v = some b) :
    AssignEnv sc "⎕IO" v env a
      = (none, { a with origin := if b then 1 else 0 }) ∧
    LookupEnv "⎕IO" (AssignEnv sc "⎕IO" v env a).2
      = (some (Value.int (if b then 1 else 0)), none) ∧
    ∀ w : Value, isNumber w = false →
      (AssignEnv sc "⎕IO" w env a).1.isSome = true ∧
      (AssignEnv sc "⎕IO" w env a).2 = a := by
  have ha : arrowIn "⎕IO" = false := by decide
  have hq : ("⎕IO" : String) ≠ "⎕" := by decide
  refine ⟨?_, ?_, ?_⟩
  · simp [AssignEnv, hvalid, hnum, htb, ha, hq]
  · simp [AssignEnv, hvalid, hnum, htb, ha, hq, LookupEnv]
  · intro w hw
    constructor <;> simp [AssignEnv, hvalid, hw, ha, hq]

/-- A state for the C8 witness. -/
def stateC8 : Apl :=
  { origin := 0, pp := 10, stdout := [], envs := [[]], pkgs := [] }

/-- C8 witness: a number coercing to true sets the origin to 1, the lookup
reads it back, and assigning a string errors. -/
theorem C8_witness :
    AssignEnv asciiScan "⎕IO" (Value.num (some true)) none stateC8
      = (none, { stateC8 with origin := 1 }) ∧
    LookupEnv "⎕IO"
        (AssignEnv asciiScan "⎕IO" (Value.num (some true)) none stateC8).2
      = (some (Value.int 1), none) ∧
    (AssignEnv asciiScan "⎕IO" (Value.str "s") none stateC8).1.isSome
      = true := by
  have h := C8_io_roundtrip asciiScan (Value.num (some true)) true none
    stateC8 (by decide) rfl rfl
  exact ⟨h.1, h.2.1, (h.2.2 (Value.str "s") rfl).1⟩

/-! ## C9: assignment to ⎕ prints -/

/-- C9: assigning any value to `⎕` appends the value's formatted text plus
a newline to the output sink, returns no error, and leaves everything else
— in particular every environment binding — unchanged (no variable named
`⎕` is created). -/
theorem C9_quad_prints (sc : Scan) (v : Value) (env : Option Nat) (a : Apl)
    (hvalid : (isVarname sc "⎕").1 = true) :
    AssignEnv sc "⎕" v env a
      = (none, { a with stdout := a.stdout ++ [formatValue v ++ "\n"] }) := by
  have ha : arrowIn "⎕" = false := by decide
  simp [AssignEnv, hvalid, ha]

/-- A state for the C9 witness. -/
def stateC9 : Apl :=
  { origin := 1, pp := 10, stdout := ["old\n"],
    envs := [[("A", Value.int 1)]], pkgs := [] }

/-- C9 witness: printing `5` appends "5\n" to the sink and keeps the
environments intact. -/
theorem C9_witness :
    AssignEnv asciiScan "⎕" (Value.int 5) none stateC9
      = (none, { stateC9 with stdout := ["old\n", "5\n"] }) := by
  have h := C9_quad_prints asciiScan (Value.int 5) none stateC9 (by decide)
  exact h

/-! ## C10: package-qualified names are read-only -/

/-- C10: a name containing `→` can never be assigned — `AssignEnv` errors
(either because the name is invalid or at the package-variable check) and
the state, hence every environment and package binding, is unchanged —
while lookup of a lower-case-qualified package name answers from the
package map. -/
theorem C10_package_assign_readonly (sc : Scan) (name : String) (v : Value)
    (env : Option Nat) (a : Apl)
    (harrow : arrowIn name = true) :
    ((AssignEnv sc name v env a).1.isSome = true ∧
      (AssignEnv sc name v env a).2 = a) ∧
    (∀ pre rest : List Char, splitAtArrow name.toList = some (pre, rest) →
      List.map Char.toLower pre = pre →
      LookupEnv name a = (packageVar name a, none)) := by
  have hio : name ≠ "⎕IO" := by
    rintro rfl; exact absurd harrow (by decide)
  have hpp : name ≠ "⎕PP" := by
    rintro rfl; exact absurd harrow (by decide)
  constructor
  · cases hok : (isVarname sc name).1 <;>
      simp [AssignEnv, hok, harrow]
  · intro pre rest hs hlow
    rw [LookupEnv, if_neg hio, if_neg hpp, hs]
    simp [hlow]

/-- A state for the C10 witness. -/
def stateC10 : Apl :=
  { origin := 1, pp := 10, stdout := [], envs := [[]],
    pkgs := [("pkg", [("X", Value.int 7)])] }

/-- C10 witness: assigning to `pkg→X` errors and changes nothing, while
looking it up reads the package binding. -/
theorem C10_witness :
    (AssignEnv asciiScan "pkg→X" (Value.int 1) none stateC10).1.isSome
      = true ∧
    (AssignEnv asciiScan "pkg→X" (Value.int 1) none stateC10).2 = stateC10 ∧
    LookupEnv "pkg→X" stateC10 = (some (Value.int 7), none) := by
  have h := C10_package_assign_readonly asciiScan "pkg→X" (Value.int 1) none
    stateC10 (by decide)
  refine ⟨h.1.1, h.1.2, ?_⟩
  have h2 := h.2 ['p', 'k', 'g'] ['X'] (by decide) (by decide)
  rw [h2]
  rfl

end IvApl
